import Mathlib

/-!
Shallow embedding of the multi-screen marquee sync server (`src/server.js`).

The server keeps three pieces of process-wide state: a session anchor
`startAt` (a `const` fixed at process start), a map `players` from
`playerId` to per-player data, and a set `controllers` of controller
connections.  Each WebSocket connection additionally carries two
connection-local variables `role` and `playerId` (closure variables of the
`connection` handler).  We model connections by natural-number identifiers,
the JS `Map` by an association list that preserves insertion order
(`Map.set` on an existing key replaces in place, otherwise appends), and
the observable effects of a handler (sends, socket closes) by a list of
`Action`s returned alongside the new state.
-/

namespace Marquee

/-- A player's layout/config object.  In JS the object supplied in a
`hello` message may lack any of the three fields, and `setConfig` merges
with `??`, so every field is optional. -/
structure Config where
  screenCount : Option Nat
  screenIndex : Option Nat
  offsetPx : Option Nat
deriving DecidableEq, Repr

/-- Default config installed by `hello` when the message carries none
(`server.js` lines 147-151). -/
def defaultConfig : Config := ⟨some 2, some 1, some 0⟩

/-- The value stored in the `players` map for one registered player
(`server.js` line 145-154): owning connection, config, last reported
width (`null` modelled as `none`), and registration time. -/
structure PlayerData where
  wsConn : Nat
  config : Config
  actualWidth : Option Nat
  connectedAt : Nat
deriving DecidableEq, Repr

/-- One element of the list built by `getPlayerList` (`server.js` 88-101). -/
structure PlayerEntry where
  playerId : String
  config : Config
  actualWidth : Option Nat
  connectedAt : Nat
deriving DecidableEq, Repr

/-- The connection-local closure variables `role` and `playerId`
(`server.js` lines 113-114); both start as `null`. -/
structure ConnState where
  role : Option String
  playerId : Option String
deriving DecidableEq, Repr

/-- The process-wide server state plus, for each connection, its local
state and whether its transport is still open (`readyState === OPEN`). -/
structure ServerState where
  startAt : Nat
  players : List (String × PlayerData)
  controllers : List Nat
  conns : List (Nat × ConnState)
  openConns : List Nat
deriving DecidableEq, Repr

/-- Inbound messages, after JSON parsing.  Fields that may be absent or
`null`/`undefined` in the JSON are `Option`s. -/
inductive InMsg
  | hello (role : Option String) (pid : Option String) (config : Option Config)
      (actualWidth : Option Nat)
  | setConfig (pid : Option String) (screenCount screenIndex offsetPx : Option Nat)
  | quickApply
  | updateMarquee (text : String) (speed : Option Nat)
  | reportWidth (actualWidth : Option Nat)
  | resetStartAt
  | unknown
deriving DecidableEq, Repr

/-- Outbound messages. -/
inductive OutMsg
  | initMsg (startAt now : Nat) (pid : Option String) (config : Option Config)
  | tickMsg (now startAt : Nat)
  | resetMsg (startAt now : Nat)
  | configMsg (c : Config)
  | playersMsg (l : List PlayerEntry)
  | marqueeMsg (text : String) (speed : Nat)
deriving DecidableEq, Repr

/-- Observable effects of one handler invocation. -/
inductive Action
  | send (c : Nat) (m : OutMsg)
  | closeConn (c : Nat)
deriving DecidableEq, Repr

/-- External events driving the server. -/
inductive Event
  | connect (c : Nat)
  | message (c : Nat) (m : InMsg) (now : Nat)
  | close (c : Nat)
  | tick (now : Nat)
deriving DecidableEq, Repr

/-! ### Map primitives (JS `Map` / `Set` on association lists) -/

/-- `Map.get`: first value stored under key `k`. -/
def mapGet {α β : Type} [DecidableEq α] : List (α × β) → α → Option β
  | [], _ => none
  | kv :: rest, k => if kv.1 = k then some kv.2 else mapGet rest k

/-- `Map.set`: replace in place if the key is present, else append
(JS `Map` preserves insertion order on overwrite). -/
def mapSet {α β : Type} [DecidableEq α] : List (α × β) → α → β → List (α × β)
  | [], k, v => [(k, v)]
  | kv :: rest, k, v => if kv.1 = k then (k, v) :: rest else kv :: mapSet rest k v

/-- `Map.delete`. -/
def mapDel {α β : Type} [DecidableEq α] : List (α × β) → α → List (α × β)
  | [], _ => []
  | kv :: rest, k => if kv.1 = k then mapDel rest k else kv :: mapDel rest k

/-- `Set.add` (no duplicates, insertion order). -/
def setAdd (l : List Nat) (c : Nat) : List Nat := if c ∈ l then l else l ++ [c]

/-- `Set.delete` / removing a connection id from a list. -/
def setDel (l : List Nat) (c : Nat) : List Nat := l.filter (fun x => decide (x ≠ c))

/-- The keys of the association list are pairwise distinct. -/
def keysNodup {α β : Type} (m : List (α × β)) : Prop := (m.map Prod.fst).Nodup

instance {α β : Type} [DecidableEq α] (m : List (α × β)) : Decidable (keysNodup m) :=
  inferInstanceAs (Decidable ((m.map Prod.fst).Nodup))

/-! ### Server helper functions -/

/-- `msg.actualWidth ? parseInt(msg.actualWidth) : null` (`server.js` 142,
279): an absent or falsy (0) width is stored as `null`. -/
def toStoredWidth : Option Nat → Option Nat
  | some w => if w = 0 then none else some w
  | none => none

/-- `msg.playerId || ("player-" + Date.now())` (`server.js` 130):
a missing or falsy (empty) requested id is replaced by a generated one. -/
def resolvePid (pid : Option String) (now : Nat) : String :=
  match pid with
  | some s => if s = "" then "player-" ++ toString now else s
  | none => "player-" ++ toString now

/-- Truthiness of an optional string field (`msg.playerId &&`). -/
def truthyStr : Option String → Prop
  | some s => s ≠ ""
  | none => False

instance (o : Option String) : Decidable (truthyStr o) := by
  cases o with
  | none => exact isFalse (fun h => h)
  | some s => exact inferInstanceAs (Decidable (s ≠ ""))

/-- Is the transport of connection `c` still open? -/
def isOpen (s : ServerState) (c : Nat) : Bool := s.openConns.contains c

/-- The projection used by `getPlayerList` (`server.js` 90-97). -/
def entryOf (kv : String × PlayerData) : PlayerEntry :=
  ⟨kv.1, kv.2.config, kv.2.actualWidth, kv.2.connectedAt⟩

/-- `getPlayerList` (`server.js` 88-101): project every map entry and
stable-sort ascending by `connectedAt` (JS `Array.prototype.sort` is
stable; insertion sort with `≤` is the same stable sort). -/
def getPlayerList (m : List (String × PlayerData)) : List PlayerEntry :=
  List.insertionSort (fun a b => a.connectedAt ≤ b.connectedAt) (m.map entryOf)

/-- `broadcastToControllers` (`server.js` 68-75): send to every
controller whose transport is open. -/
def broadcastToControllers (s : ServerState) (m : OutMsg) : List Action :=
  (s.controllers.filter (fun c => isOpen s c)).map (fun c => Action.send c m)

/-- `broadcastToPlayers` (`server.js` 78-85). -/
def broadcastToPlayers (s : ServerState) (m : OutMsg) : List Action :=
  (s.players.filter (fun kv => isOpen s kv.2.wsConn)).map
    (fun kv => Action.send kv.2.wsConn m)

/-- `notifyPlayersUpdate` (`server.js` 104-109). -/
def notifyActions (s : ServerState) : List Action :=
  broadcastToControllers s (OutMsg.playersMsg (getPlayerList s.players))

/-- `msg.speed || DEFAULT_SPEED_PX_SEC` (`server.js` 256). -/
def resolveSpeed : Option Nat → Nat
  | some v => if v = 0 then 120 else v
  | none => 120

/-- `if (player.actualWidth) { cumulativeOffset += player.actualWidth }`
(`server.js` 237-239): only a truthy (known, nonzero) width is added. -/
def nextCum (cum : Nat) (o : Option Nat) : Nat :=
  match o with
  | some w => if w = 0 then cum else cum + w
  | none => cum

/-- The loop body of `quickApply` (`server.js` 216-243): walk the sorted
snapshot, give each player `{screenCount: n, screenIndex: idx+1,
offsetPx: cumulativeOffset}`, send it when the transport is open, and add
the player's truthy reported width to the running offset. -/
def quickApplyLoop (opn : List Nat) (l : List PlayerEntry) (n idx cum : Nat)
    (m : List (String × PlayerData)) : List (String × PlayerData) × List Action :=
  match l with
  | [] => (m, [])
  | item :: rest =>
    match mapGet m item.playerId with
    | some pl =>
      let newCfg : Config := ⟨some n, some (idx + 1), some cum⟩
      let m1 := mapSet m item.playerId { pl with config := newCfg }
      let acts1 := if opn.contains pl.wsConn then
          [Action.send pl.wsConn (OutMsg.configMsg newCfg)] else []
      let res := quickApplyLoop opn rest n (idx + 1) (nextCum cum pl.actualWidth) m1
      (res.1, acts1 ++ res.2)
    | none => quickApplyLoop opn rest n (idx + 1) cum m

/-- One invocation of the `message` handler (`server.js` 116-307) on a
connection whose local state is `cs`; returns the new server state and
the emitted actions. -/
def handleMessage (s : ServerState) (c : Nat) (cs : ConnState) (m : InMsg)
    (now : Nat) : ServerState × List Action :=
  match m with
  | .hello r pid cfg w =>
    -- `role = msg.role` happens unconditionally (line 127)
    if r = some "player" then
      let pid1 := resolvePid pid now
      let cs1 : ConnState := ⟨r, some pid1⟩
      -- close an existing open connection holding the same id (lines 133-139);
      -- `ws.close()` makes that transport leave the OPEN state at once
      let closeActs : List Action :=
        match mapGet s.players pid1 with
        | some existing =>
          if isOpen s existing.wsConn then [Action.closeConn existing.wsConn] else []
        | none => []
      let opn1 : List Nat :=
        match mapGet s.players pid1 with
        | some existing =>
          if isOpen s existing.wsConn then setDel s.openConns existing.wsConn
          else s.openConns
        | none => s.openConns
      let newData : PlayerData :=
        ⟨c, cfg.getD defaultConfig, toStoredWidth w, now⟩
      let s2 := { s with players := mapSet s.players pid1 newData,
                         conns := mapSet s.conns c cs1,
                         openConns := opn1 }
      (s2, closeActs
        ++ [Action.send c (OutMsg.initMsg s2.startAt now (some pid1) (some newData.config))]
        ++ notifyActions s2)
    else if r = some "controller" then
      let s2 := { s with controllers := setAdd s.controllers c,
                         conns := mapSet s.conns c ⟨r, cs.playerId⟩ }
      (s2, [Action.send c (OutMsg.initMsg s2.startAt now none none),
            Action.send c (OutMsg.playersMsg (getPlayerList s2.players))])
    else
      ({ s with conns := mapSet s.conns c ⟨r, cs.playerId⟩ }, [])
  | .setConfig pid sc si off =>
    if cs.role = some "controller" ∧ truthyStr pid then
      match pid with
      | some p =>
        match mapGet s.players p with
        | some pl =>
          let newCfg : Config :=
            ⟨sc <|> pl.config.screenCount,
             si <|> pl.config.screenIndex,
             some ((off <|> pl.config.offsetPx).getD 0)⟩
          let s2 := { s with players := mapSet s.players p { pl with config := newCfg } }
          let sendActs := if isOpen s2 pl.wsConn then
              [Action.send pl.wsConn (OutMsg.configMsg newCfg)] else []
          (s2, sendActs ++ notifyActions s2)
        | none => (s, [])
      | none => (s, [])
    else (s, [])
  | .quickApply =>
    if cs.role = some "controller" then
      let l := getPlayerList s.players
      let res := quickApplyLoop s.openConns l l.length 0 0 s.players
      let s2 := { s with players := res.1 }
      (s2, res.2 ++ notifyActions s2)
    else (s, [])
  | .updateMarquee text speed =>
    if cs.role = some "controller" then
      (s, broadcastToPlayers s (OutMsg.marqueeMsg text (resolveSpeed speed)))
    else (s, [])
  | .reportWidth w =>
    if cs.role = some "player" ∧ truthyStr cs.playerId then
      match cs.playerId with
      | some pid =>
        match mapGet s.players pid with
        | some pl =>
          let newW := toStoredWidth w
          let s2 := { s with players := mapSet s.players pid { pl with actualWidth := newW } }
          if pl.actualWidth ≠ newW then (s2, notifyActions s2) else (s2, [])
        | none => (s, [])
      | none => (s, [])
    else (s, [])
  | .resetStartAt =>
    -- NOTE: the JS `startAt` is a `const`; the handler (lines 289-305)
    -- broadcasts a `reset` with a fresh timestamp but never changes it.
    if cs.role = some "controller" then
      (s, broadcastToPlayers s (OutMsg.resetMsg now now)
        ++ broadcastToControllers s (OutMsg.resetMsg now now))
    else (s, [])
  | .unknown => (s, [])

/-- The full event-step function: connection creation, message dispatch,
close handler (`server.js` 309-318) and the tick timer (326-335). -/
def step (s : ServerState) (e : Event) : ServerState × List Action :=
  match e with
  | .connect c =>
    ({ s with conns := mapSet s.conns c ⟨none, none⟩,
              openConns := setAdd s.openConns c }, [])
  | .message c m now =>
    match mapGet s.conns c with
    | some cs => handleMessage s c cs m now
    | none => (s, [])
  | .close c =>
    let s0 := { s with openConns := setDel s.openConns c }
    match mapGet s0.conns c with
    | some cs =>
      if cs.role = some "player" ∧ truthyStr cs.playerId then
        match cs.playerId with
        | some pid =>
          let s2 := { s0 with players := mapDel s0.players pid }
          (s2, notifyActions s2)
        | none => (s0, [])
      else if cs.role = some "controller" then
        ({ s0 with controllers := setDel s0.controllers c }, [])
      else (s0, [])
    | none => (s0, [])
  | .tick now =>
    (s, broadcastToPlayers s (OutMsg.tickMsg now s.startAt)
      ++ broadcastToControllers s (OutMsg.tickMsg now s.startAt))

/-- The state at process start: anchor fixed, everything empty. -/
def initState (t0 : Nat) : ServerState := ⟨t0, [], [], [], []⟩

/-- States reachable from some process start by any event sequence. -/
inductive Reachable : ServerState → Prop
  | start (t0 : Nat) : Reachable (initState t0)
  | next {s : ServerState} (e : Event) : Reachable s → Reachable (step s e).1

/-- Width contribution of a snapshot entry to quick-apply's running
offset: an unknown (or falsy) width contributes zero. -/
def widthOf (e : PlayerEntry) : Nat := e.actualWidth.getD 0

/-- Sum of the widths of the first `i` snapshot entries: the offset
quick-apply assigns to entry `i`. -/
def prefixOffset (l : List PlayerEntry) (i : Nat) : Nat :=
  ((l.take i).map widthOf).sum

/-! ### Association-list lemmas -/

theorem mapGet_mapSet_self {α β : Type} [DecidableEq α] (m : List (α × β)) (k : α) (v : β) :
    mapGet (mapSet m k v) k = some v := by
  induction m with
  | nil => simp [mapGet, mapSet]
  | cons kv rest ih =>
    by_cases h : kv.1 = k
    · simp [mapSet, mapGet, h]
    · simp [mapSet, mapGet, h, ih]

theorem mapGet_mapSet_ne {α β : Type} [DecidableEq α] (m : List (α × β)) {k k' : α} (v : β)
    (h : k' ≠ k) : mapGet (mapSet m k v) k' = mapGet m k' := by
  induction m with
  | nil => simp [mapGet, mapSet, Ne.symm h]
  | cons kv rest ih =>
    by_cases hk : kv.1 = k
    · simp [mapSet, mapGet, hk, Ne.symm h]
    · simp [mapSet, mapGet, hk, h, ih]

theorem mem_keys_mapSet {α β : Type} [DecidableEq α] (m : List (α × β)) (k : α) (v : β)
    (a : α) : a ∈ (mapSet m k v).map Prod.fst ↔ a ∈ m.map Prod.fst ∨ a = k := by
  induction m with
  | nil => simp [mapSet]
  | cons kv rest ih =>
    by_cases h : kv.1 = k
    · subst h
      simp [mapSet]
      tauto
    · simp [mapSet, h, ih]
      tauto

theorem keysNodup_mapSet {α β : Type} [DecidableEq α] (m : List (α × β)) (k : α) (v : β)
    (h : keysNodup m) : keysNodup (mapSet m k v) := by
  induction m with
  | nil => simp [keysNodup, mapSet]
  | cons kv rest ih =>
    have hh : (kv.1 :: rest.map Prod.fst).Nodup := by simpa [keysNodup] using h
    obtain ⟨h1, h2⟩ := List.nodup_cons.mp hh
    by_cases hk : kv.1 = k
    · subst hk
      simpa [keysNodup, mapSet] using h
    · have hrec := ih h2
      simp only [keysNodup, mapSet, hk, if_neg hk, List.map_cons]
      refine List.nodup_cons.mpr ⟨?_, by simpa [keysNodup] using hrec⟩
      intro hmem
      rcases (mem_keys_mapSet rest k v kv.1).mp hmem with h' | h'
      · exact h1 h'
      · exact hk h'

theorem mapGet_of_mem {α β : Type} [DecidableEq α] {m : List (α × β)} {kv : α × β}
    (h : keysNodup m) (hmem : kv ∈ m) : mapGet m kv.1 = some kv.2 := by
  induction m with
  | nil => cases hmem
  | cons kv' rest ih =>
    have hh : (kv'.1 :: rest.map Prod.fst).Nodup := by simpa [keysNodup] using h
    obtain ⟨h1, h2⟩ := List.nodup_cons.mp hh
    rcases List.mem_cons.mp hmem with h' | h'
    · subst h'
      simp [mapGet]
    · have hne : kv'.1 ≠ kv.1 := by
        intro he
        exact h1 (he ▸ List.mem_map_of_mem Prod.fst h')
      simp only [mapGet, if_neg hne]
      exact ih h2 h'

theorem mem_keys_of_mapGet {α β : Type} [DecidableEq α] {m : List (α × β)} {k : α} {v : β}
    (h : mapGet m k = some v) : k ∈ m.map Prod.fst := by
  induction m with
  | nil => simp [mapGet] at h
  | cons kv rest ih =>
    by_cases hk : kv.1 = k
    · simp [hk]
    · simp only [mapGet, if_neg hk] at h
      simp [ih h]

theorem mapSet_eq_self {α β : Type} [DecidableEq α] {m : List (α × β)} {k : α} {v : β}
    (hnd : keysNodup m) (h : mapGet m k = some v) : mapSet m k v = m := by
  induction m with
  | nil => simp [mapGet] at h
  | cons kv rest ih =>
    have hh : (kv.1 :: rest.map Prod.fst).Nodup := by simpa [keysNodup] using hnd
    obtain ⟨h1, h2⟩ := List.nodup_cons.mp hh
    by_cases hk : kv.1 = k
    · simp only [mapGet, if_pos hk] at h
      obtain rfl : kv.2 = v := Option.some_inj.mp h
      simp only [mapSet, if_pos hk]
      rw [← hk]
    · simp only [mapGet, if_neg hk] at h
      simp [mapSet, hk, ih h2 h]

theorem mapDel_keys_sublist {α β : Type} [DecidableEq α] (m : List (α × β)) (k : α) :
    List.Sublist ((mapDel m k).map Prod.fst) (m.map Prod.fst) := by
  induction m with
  | nil => simp [mapDel]
  | cons kv rest ih =>
    by_cases hk : kv.1 = k
    · simp only [mapDel, if_pos hk, List.map_cons]
      exact ih.trans (List.sublist_cons_self _ _)
    · simpa [mapDel, hk] using ih.cons₂ kv.1

theorem keysNodup_mapDel {α β : Type} [DecidableEq α] {m : List (α × β)} (k : α)
    (h : keysNodup m) : keysNodup (mapDel m k) :=
  List.Nodup.sublist (mapDel_keys_sublist m k) h

/-! ### Snapshot (getPlayerList) lemmas -/

instance : IsTotal PlayerEntry (fun a b => a.connectedAt ≤ b.connectedAt) :=
  ⟨fun a b => Nat.le_total a.connectedAt b.connectedAt⟩

instance : IsTrans PlayerEntry (fun a b => a.connectedAt ≤ b.connectedAt) :=
  ⟨fun _ _ _ hab hbc => Nat.le_trans hab hbc⟩

theorem getPlayerList_sorted (m : List (String × PlayerData)) :
    List.Sorted (fun a b => a.connectedAt ≤ b.connectedAt) (getPlayerList m) :=
  List.sorted_insertionSort _ _

theorem getPlayerList_perm (m : List (String × PlayerData)) :
    (getPlayerList m).Perm (m.map entryOf) :=
  List.perm_insertionSort _ _

theorem getPlayerList_ids (m : List (String × PlayerData)) :
    ((m.map entryOf).map (fun e => e.playerId)) = m.map Prod.fst := by
  simp [entryOf, Function.comp_def]

theorem getPlayerList_ids_nodup (m : List (String × PlayerData)) (h : keysNodup m) :
    ((getPlayerList m).map (fun e => e.playerId)).Nodup := by
  have hp := (getPlayerList_perm m).map (fun e => e.playerId)
  exact hp.nodup_iff.mpr (getPlayerList_ids m ▸ h)

theorem mem_getPlayerList {m : List (String × PlayerData)} {e : PlayerEntry}
    (he : e ∈ getPlayerList m) : ∃ kv, kv ∈ m ∧ e = entryOf kv := by
  have h := (getPlayerList_perm m).mem_iff.mp he
  obtain ⟨kv, hkv, rfl⟩ := List.mem_map.mp h
  exact ⟨kv, hkv, rfl⟩

theorem snapshot_entry_get {m : List (String × PlayerData)} (h : keysNodup m)
    {e : PlayerEntry} (he : e ∈ getPlayerList m) :
    ∃ pl, mapGet m e.playerId = some pl ∧ pl.actualWidth = e.actualWidth ∧
      pl.connectedAt = e.connectedAt ∧ pl.config = e.config := by
  obtain ⟨kv, hkv, rfl⟩ := mem_getPlayerList he
  exact ⟨kv.2, mapGet_of_mem h hkv, rfl, rfl, rfl⟩

/-- Stability of `orderedInsert` with respect to a filter on the sort key. -/
theorem filter_orderedInsert (t : Nat) (x : PlayerEntry) (l : List PlayerEntry) :
    (List.orderedInsert (fun a b => a.connectedAt ≤ b.connectedAt) x l).filter
        (fun e => decide (e.connectedAt = t)) =
      if x.connectedAt = t
      then x :: l.filter (fun e => decide (e.connectedAt = t))
      else l.filter (fun e => decide (e.connectedAt = t)) := by
  induction l with
  | nil =>
    by_cases hx : x.connectedAt = t <;> simp [List.orderedInsert, hx]
  | cons b l ih =>
    by_cases hle : x.connectedAt ≤ b.connectedAt
    · rw [List.orderedInsert, if_pos hle]
      by_cases hx : x.connectedAt = t <;> simp [List.filter_cons, hx]
    · rw [List.orderedInsert, if_neg hle]
      by_cases hb : b.connectedAt = t
      · have hx : ¬(x.connectedAt = t) := fun hx => hle (by omega)
        simp [List.filter_cons, hb, hx, ih]
      · by_cases hx : x.connectedAt = t <;>
          simp [List.filter_cons, hb, hx, ih]

/-- Stability of the snapshot sort: entries with any fixed `connectedAt`
keep their registration (insertion) order. -/
theorem filter_insertionSort (t : Nat) (l : List PlayerEntry) :
    (List.insertionSort (fun a b => a.connectedAt ≤ b.connectedAt) l).filter
        (fun e => decide (e.connectedAt = t)) =
      l.filter (fun e => decide (e.connectedAt = t)) := by
  induction l with
  | nil => simp [List.insertionSort]
  | cons x l ih =>
    by_cases hx : x.connectedAt = t <;>
      simp [List.insertionSort, filter_orderedInsert, hx, List.filter, ih]

/-! ### quickApply loop lemmas -/

theorem quickApplyLoop_keysNodup (opn : List Nat) (l : List PlayerEntry) (n idx cum : Nat)
    (m : List (String × PlayerData)) (h : keysNodup m) :
    keysNodup (quickApplyLoop opn l n idx cum m).1 := by
  induction l generalizing idx cum m with
  | nil => simpa [quickApplyLoop] using h
  | cons item rest ih =>
    simp only [quickApplyLoop]
    cases hg : mapGet m item.playerId with
    | none => exact ih _ _ _ h
    | some pl => exact ih _ _ _ (keysNodup_mapSet _ _ _ h)

theorem quickApplyLoop_mapGet_notin (opn : List Nat) (l : List PlayerEntry)
    (n idx cum : Nat) (m : List (String × PlayerData)) (k : String)
    (hk : k ∉ l.map (fun e => e.playerId)) :
    mapGet (quickApplyLoop opn l n idx cum m).1 k = mapGet m k := by
  induction l generalizing idx cum m with
  | nil => simp [quickApplyLoop]
  | cons item rest ih =>
    have hk1 : k ≠ item.playerId := by
      intro he
      exact hk (by simp [he])
    have hk2 : k ∉ rest.map (fun e => e.playerId) := by
      intro he
      exact hk (by simp [he])
    simp only [quickApplyLoop]
    cases hg : mapGet m item.playerId with
    | none => exact ih _ _ _ hk2
    | some pl =>
      rw [ih _ _ _ hk2]
      exact mapGet_mapSet_ne _ _ hk1

/-- The running-offset update of the loop body equals adding the
(defaulted-to-zero) width: a missing or falsy (0) reported width
contributes zero. -/
theorem nextCum_eq (cum : Nat) (o : Option Nat) : nextCum cum o = cum + o.getD 0 := by
  cases o with
  | none => simp [nextCum]
  | some w =>
    by_cases hw : w = 0 <;> simp [nextCum, hw]

theorem prefixOffset_zero (l : List PlayerEntry) : prefixOffset l 0 = 0 := by
  simp [prefixOffset]

theorem prefixOffset_cons (item : PlayerEntry) (rest : List PlayerEntry) (j : Nat) :
    prefixOffset (item :: rest) (j + 1) = widthOf item + prefixOffset rest j := by
  simp [prefixOffset, List.take_succ_cons]

/-- Main loop spec: the `i`-th snapshot entry ends up with
`screenCount = n`, `screenIndex = idx + i + 1`, and offset
`cum +` (sum of the known widths of the entries before it). -/
theorem quickApplyLoop_spec (opn : List Nat) (l : List PlayerEntry)
    (n idx cum : Nat) (m : List (String × PlayerData))
    (hnd : (l.map (fun e => e.playerId)).Nodup)
    (hm : ∀ e ∈ l, ∃ pl, mapGet m e.playerId = some pl ∧ pl.actualWidth = e.actualWidth)
    (i : Nat) (hi : i < l.length) :
    ∃ pl, mapGet (quickApplyLoop opn l n idx cum m).1 (l.get ⟨i, hi⟩).playerId = some pl ∧
      pl.config = ⟨some n, some (idx + i + 1), some (cum + prefixOffset l i)⟩ := by
  induction l generalizing idx cum m i with
  | nil => exact absurd hi (by simp)
  | cons item rest ih =>
    obtain ⟨pl, hpl, hw⟩ := hm item (by simp)
    obtain ⟨hnd1, hnd2⟩ := List.nodup_cons.mp hnd
    simp only [quickApplyLoop, hpl]
    cases i with
    | zero =>
      refine ⟨{ pl with config := ⟨some n, some (idx + 1), some cum⟩ }, ?_, by
        simp [prefixOffset_zero]⟩
      rw [quickApplyLoop_mapGet_notin _ _ _ _ _ _ _ (by simpa using hnd1)]
      exact mapGet_mapSet_self _ _ _
    | succ j =>
      have hj : j < rest.length := by simpa using hi
      have hm' : ∀ e ∈ rest, ∃ pl', mapGet (mapSet m item.playerId
          { pl with config := ⟨some n, some (idx + 1), some cum⟩ }) e.playerId = some pl' ∧
          pl'.actualWidth = e.actualWidth := by
        intro e he
        obtain ⟨pl', hpl', hw'⟩ := hm e (List.mem_cons_of_mem _ he)
        have hne : e.playerId ≠ item.playerId := by
          intro hx
          have hmem : e.playerId ∈ rest.map (fun e => e.playerId) :=
            List.mem_map_of_mem (fun e => e.playerId) he
          rw [hx] at hmem
          exact hnd1 hmem
        exact ⟨pl', by rw [mapGet_mapSet_ne _ _ hne]; exact hpl', hw'⟩
      rw [hw] at hm'
      rw [nextCum_eq, hw]
      have hres := ih (idx + 1) (cum + item.actualWidth.getD 0) _ hnd2 hm' j hj
      obtain ⟨pl', hpl', hcfg⟩ := hres
      refine ⟨pl', by simpa using hpl', ?_⟩
      have h1 : idx + 1 + j + 1 = idx + (j + 1) + 1 := by omega
      have h2 : cum + item.actualWidth.getD 0 + prefixOffset rest j
          = cum + prefixOffset (item :: rest) (j + 1) := by
        rw [prefixOffset_cons]
        simp only [widthOf]
        omega
      rw [hcfg, h1, h2]

/-! ### Registry invariant: keys of `players` are always distinct -/

theorem handleMessage_keysNodup (s : ServerState) (c : Nat) (cs : ConnState)
    (m : InMsg) (now : Nat) (h : keysNodup s.players) :
    keysNodup (handleMessage s c cs m now).1.players := by
  cases m with
  | hello r pid cfg w =>
    simp only [handleMessage]
    split
    · exact keysNodup_mapSet _ _ _ h
    · split
      · exact h
      · exact h
  | setConfig pid sc si off =>
    simp only [handleMessage]
    split
    · split
      · split
        · exact keysNodup_mapSet _ _ _ h
        · exact h
      · exact h
    · exact h
  | quickApply =>
    simp only [handleMessage]
    split
    · exact quickApplyLoop_keysNodup _ _ _ _ _ _ h
    · exact h
  | updateMarquee text speed =>
    simp only [handleMessage]
    split <;> exact h
  | reportWidth w =>
    simp only [handleMessage]
    split
    · split
      · split
        · split
          · exact keysNodup_mapSet _ _ _ h
          · exact keysNodup_mapSet _ _ _ h
        · exact h
      · exact h
    · exact h
  | resetStartAt =>
    simp only [handleMessage]
    split <;> exact h
  | unknown => exact h

theorem step_keysNodup (s : ServerState) (e : Event) (h : keysNodup s.players) :
    keysNodup (step s e).1.players := by
  cases e with
  | connect c => exact h
  | tick now => exact h
  | message c m now =>
    simp only [step]
    split
    · exact handleMessage_keysNodup _ _ _ _ _ h
    · exact h
  | close c =>
    simp only [step]
    split
    · split
      · split
        · exact keysNodup_mapDel _ h
        · exact h
      · split
        · exact h
        · exact h
    · exact h

theorem reachable_keysNodup {s : ServerState} (h : Reachable s) : keysNodup s.players := by
  induction h with
  | start t0 => simp [initState, keysNodup]
  | next e _ ih => exact step_keysNodup _ e ih

/-! ### Step-reduction helpers -/

theorem step_message_eq (s : ServerState) (c : Nat) (m : InMsg) (now : Nat)
    (cs : ConnState) (h : mapGet s.conns c = some cs) :
    step s (.message c m now) = handleMessage s c cs m now := by
  simp [step, h]

theorem handleMessage_conns_eq (s : ServerState) (c : Nat) (cs : ConnState)
    (m : InMsg) (now : Nat) (hm : ∀ r pid cfg w, m ≠ InMsg.hello r pid cfg w) :
    (handleMessage s c cs m now).1.conns = s.conns := by
  cases m with
  | hello r pid cfg w => exact absurd rfl (hm r pid cfg w)
  | setConfig pid sc si off =>
    simp only [handleMessage]
    split
    · split
      · split
        · rfl
        · rfl
      · rfl
    · rfl
  | quickApply =>
    simp only [handleMessage]
    split <;> rfl
  | updateMarquee text speed =>
    simp only [handleMessage]
    split <;> rfl
  | reportWidth w =>
    simp only [handleMessage]
    split
    · split
      · split
        · split
          · rfl
          · rfl
        · rfl
      · rfl
    · rfl
  | resetStartAt =>
    simp only [handleMessage]
    split <;> rfl
  | unknown => rfl

theorem prefixOffset_succ (l : List PlayerEntry) (i : Nat) (hi : i < l.length) :
    prefixOffset l (i + 1) = prefixOffset l i + widthOf (l.get ⟨i, hi⟩) := by
  induction l generalizing i with
  | nil => simp at hi
  | cons x xs ih =>
    cases i with
    | zero => simp [prefixOffset_cons, prefixOffset_zero]
    | succ j =>
      have hj : j < xs.length := by simpa using hi
      rw [prefixOffset_cons, prefixOffset_cons, ih j hj]
      simp
      omega

/-! ### A concrete scenario used as witness input: four players A-D with
reported widths 1920, 1080, unknown, 800, one live controller (conn 5)
and one connection that has not sent `hello` yet (conn 6). -/

def exPlayers : List (String × PlayerData) :=
  [("A", ⟨1, defaultConfig, some 1920, 10⟩),
   ("B", ⟨2, defaultConfig, some 1080, 11⟩),
   ("C", ⟨3, defaultConfig, none, 12⟩),
   ("D", ⟨4, defaultConfig, some 800, 13⟩)]

def exState : ServerState :=
  { startAt := 0, players := exPlayers, controllers := [5],
    conns := [(1, ⟨some "player", some "A"⟩), (2, ⟨some "player", some "B"⟩),
              (3, ⟨some "player", some "C"⟩), (4, ⟨some "player", some "D"⟩),
              (5, ⟨some "controller", none⟩), (6, ⟨none, none⟩)],
    openConns := [1, 2, 3, 4, 5, 6] }

/-! ### Claim theorems -/

/-- C1: a `quickApply` from a controller assigns the `i`-th player of the
snapshot (ordered ascending by `connectedAt`) the layout
`{screenCount: n, screenIndex: i+1, offsetPx: sum of the known reported
widths of the players before it}`; an unknown width contributes zero to
downstream offsets. -/
theorem quickApply_assigns_snapshot_layouts (s : ServerState) (c now : Nat)
    (cs : ConnState) (hconn : mapGet s.conns c = some cs)
    (hrole : cs.role = some "controller") (hkeys : keysNodup s.players)
    (i : Nat) (hi : i < (getPlayerList s.players).length) :
    ∃ pl, mapGet (step s (.message c .quickApply now)).1.players
        ((getPlayerList s.players).get ⟨i, hi⟩).playerId = some pl ∧
      pl.config = ⟨some (getPlayerList s.players).length, some (i + 1),
        some (prefixOffset (getPlayerList s.players) i)⟩ := by
  rw [step_message_eq s c _ now cs hconn]
  simp only [handleMessage, hrole, if_pos]
  have h0 := quickApplyLoop_spec s.openConns (getPlayerList s.players)
      (getPlayerList s.players).length 0 0 s.players
      (getPlayerList_ids_nodup _ hkeys)
      (fun e he => by
        obtain ⟨pl, hpl, hw, _, _⟩ := snapshot_entry_get hkeys he
        exact ⟨pl, hpl, hw⟩) i hi
  simpa using h0

/-- C1 witness: on the concrete A/B/C/D state, player B (snapshot index 1)
receives `{screenCount: 4, screenIndex: 2, offsetPx: 1920}`. -/
theorem quickApply_assigns_snapshot_layouts_witness :
    ∃ pl, mapGet (step exState (.message 5 .quickApply 100)).1.players "B" = some pl ∧
      pl.config = ⟨some 4, some 2, some 1920⟩ := by
  have h := quickApply_assigns_snapshot_layouts exState 5 100 ⟨some "controller", none⟩
    (by decide) rfl (by decide) 1 (by decide)
  obtain ⟨pl, h1, h2⟩ := h
  have hB : ((getPlayerList exState.players).get ⟨1, by decide⟩).playerId = "B" := by decide
  rw [hB] at h1
  refine ⟨pl, h1, ?_⟩
  rw [h2]
  decide

/-- C2 (code divergence, shown at a concrete input): a `resetStartAt` from
the controller broadcasts `reset` messages carrying the fresh timestamp
100, but the process-wide `startAt` (a JS `const`) is left at 0, and the
next `tick` still reports the pre-reset anchor 0 to every party. -/
theorem resetStartAt_leaves_anchor_stale :
    (step exState (.message 5 .resetStartAt 100)).2.head?
        = some (Action.send 1 (OutMsg.resetMsg 100 100)) ∧
    (step exState (.message 5 .resetStartAt 100)).1 = exState ∧
    (step (step exState (.message 5 .resetStartAt 100)).1 (.tick 105)).2.head?
        = some (Action.send 1 (OutMsg.tickMsg 105 0)) ∧
    (step exState (.message 5 .resetStartAt 100)).1.startAt = 0 := by
  refine ⟨?_, ?_, ?_, ?_⟩ <;> decide

/-- C7: for every registry content, the snapshot `getPlayerList` is sorted
ascending by `connectedAt`, contains exactly the live players (it is a
permutation of the projected registry entries), and the sort is stable:
entries sharing a `connectedAt` keep their registration order.  Being a
pure function of the registry, it is deterministic for fixed connect
times. -/
theorem snapshot_sorted_complete_stable (m : List (String × PlayerData)) :
    List.Sorted (fun a b => a.connectedAt ≤ b.connectedAt) (getPlayerList m) ∧
    (getPlayerList m).Perm (m.map entryOf) ∧
    (∀ t, (getPlayerList m).filter (fun e => decide (e.connectedAt = t)) =
      (m.map entryOf).filter (fun e => decide (e.connectedAt = t))) :=
  ⟨getPlayerList_sorted m, getPlayerList_perm m, fun t => filter_insertionSort t _⟩

/-- C5: on a connection whose role is still unset (no `hello` processed),
every inbound message other than `hello` leaves the entire server state
unchanged and emits nothing. -/
theorem no_effect_before_hello (s : ServerState) (c now : Nat) (m : InMsg)
    (cs : ConnState) (hconn : mapGet s.conns c = some cs) (hrole : cs.role = none)
    (hm : ∀ r pid cfg w, m ≠ InMsg.hello r pid cfg w) :
    step s (.message c m now) = (s, []) := by
  rw [step_message_eq s c m now cs hconn]
  cases m with
  | hello r pid cfg w => exact absurd rfl (hm r pid cfg w)
  | setConfig pid sc si off => simp [handleMessage, hrole]
  | quickApply => simp [handleMessage, hrole]
  | updateMarquee text speed => simp [handleMessage, hrole]
  | reportWidth w => simp [handleMessage, hrole]
  | resetStartAt => simp [handleMessage, hrole]
  | unknown => rfl

/-- C5 witness: a `setConfig` arriving on the not-yet-declared connection 6
of the concrete scenario changes nothing and sends nothing. -/
theorem no_effect_before_hello_witness :
    step exState (.message 6 (.setConfig (some "A") (some 9) (some 9) (some 9)) 50)
      = (exState, []) :=
  no_effect_before_hello exState 6 50 _ ⟨none, none⟩ (by decide) rfl
    (fun _ _ _ _ h => by cases h)

/-- C6 counterexample: the same connection first declares itself a
controller, then sends a second `hello` declaring itself a player; its
role changes from `controller` to `player`, so a declared role is not
immutable. -/
theorem role_reassigned_by_second_hello :
    mapGet (step (step (step (initState 0) (.connect 0)).1
        (.message 0 (.hello (some "controller") none none none) 1)).1
        (.message 0 (.hello (some "player") (some "p1") none none) 2)).1.conns 0
      = some ⟨some "player", some "p1"⟩ ∧
    mapGet (step (step (initState 0) (.connect 0)).1
        (.message 0 (.hello (some "controller") none none none) 1)).1.conns 0
      = some ⟨some "controller", none⟩ := by
  refine ⟨?_, ?_⟩ <;> decide

/-- C6 amended: a connection's role is unchanged by every message other
than `hello`, but a subsequent `hello` overwrites it with the new
message's role field (so role is only immutable in the absence of further
`hello` messages). -/
theorem role_changes_only_on_hello :
    (∀ (s : ServerState) (c now : Nat) (m : InMsg) (cs : ConnState),
      mapGet s.conns c = some cs →
      (∀ r pid cfg w, m ≠ InMsg.hello r pid cfg w) →
      mapGet (step s (.message c m now)).1.conns c = some cs) ∧
    (∀ (s : ServerState) (c now : Nat) (r pid : Option String)
        (cfg : Option Config) (w : Option Nat) (cs : ConnState),
      mapGet s.conns c = some cs →
      ∃ p, mapGet (step s (.message c (.hello r pid cfg w) now)).1.conns c
        = some ⟨r, p⟩) := by
  constructor
  · intro s c now m cs hconn hm
    rw [step_message_eq s c m now cs hconn, handleMessage_conns_eq s c cs m now hm]
    exact hconn
  · intro s c now r pid cfg w cs hconn
    rw [step_message_eq s c _ now cs hconn]
    simp only [handleMessage]
    split
    · exact ⟨some (resolvePid pid now), mapGet_mapSet_self _ _ _⟩
    · split
      · exact ⟨cs.playerId, mapGet_mapSet_self _ _ _⟩
      · exact ⟨cs.playerId, mapGet_mapSet_self _ _ _⟩

/-- C6 amended witness: an `unknown` message on the controller connection 5
leaves its connection state untouched, and a fresh `hello` on connection 6
installs that hello's role. -/
theorem role_changes_only_on_hello_witness :
    mapGet (step exState (.message 5 .unknown 50)).1.conns 5
        = some ⟨some "controller", none⟩ ∧
    ∃ p, mapGet (step exState
        (.message 6 (.hello (some "controller") none none none) 50)).1.conns 6
      = some ⟨some "controller", p⟩ := by
  constructor
  · exact role_changes_only_on_hello.1 exState 5 50 .unknown ⟨some "controller", none⟩
      (by decide) (fun _ _ _ _ h => by cases h)
  · exact role_changes_only_on_hello.2 exState 6 50 (some "controller") none none none
      ⟨none, none⟩ (by decide)

/-- C10: a `hello` whose role is neither `player` nor `controller`
registers nothing, replies nothing and broadcasts nothing — the player
registry, controller set and session anchor are unchanged (only the
connection-local role is overwritten) — and when a connection holding
such a role later closes, no registry cleanup and no controller
notification occurs. -/
theorem invalid_hello_no_effect :
    (∀ (s : ServerState) (c now : Nat) (r pid : Option String)
        (cfg : Option Config) (w : Option Nat) (cs : ConnState),
      mapGet s.conns c = some cs →
      r ≠ some "player" → r ≠ some "controller" →
      (step s (.message c (.hello r pid cfg w) now)).1.players = s.players ∧
      (step s (.message c (.hello r pid cfg w) now)).1.controllers = s.controllers ∧
      (step s (.message c (.hello r pid cfg w) now)).1.startAt = s.startAt ∧
      (step s (.message c (.hello r pid cfg w) now)).2 = [] ∧
      mapGet (step s (.message c (.hello r pid cfg w) now)).1.conns c
        = some ⟨r, cs.playerId⟩) ∧
    (∀ (s : ServerState) (c : Nat) (cs : ConnState),
      mapGet s.conns c = some cs →
      cs.role ≠ some "player" → cs.role ≠ some "controller" →
      (step s (.close c)).1.players = s.players ∧
      (step s (.close c)).1.controllers = s.controllers ∧
      (step s (.close c)).2 = []) := by
  constructor
  · intro s c now r pid cfg w cs hconn hp hc
    rw [step_message_eq s c _ now cs hconn]
    simp only [handleMessage, if_neg hp, if_neg hc]
    simp [mapGet_mapSet_self]
  · intro s c cs hconn hp hc
    have hconn0 : mapGet ({ s with openConns := setDel s.openConns c } : ServerState).conns c
        = some cs := hconn
    simp only [step, hconn0]
    have hcond : ¬(cs.role = some "player" ∧ truthyStr cs.playerId) := fun h => hp h.1
    simp only [if_neg hcond, if_neg hc]
    simp

/-- C10 witness: a `hello` with role `"spectator"` on connection 6 of the
concrete state changes no registry state and emits nothing, and closing
that connection afterwards also changes nothing and emits nothing. -/
theorem invalid_hello_no_effect_witness :
    ((step exState (.message 6 (.hello (some "spectator") none none none) 50)).1.players
        = exState.players ∧
      (step exState (.message 6 (.hello (some "spectator") none none none) 50)).2 = []) ∧
    ((step (step exState (.message 6 (.hello (some "spectator") none none none) 50)).1
          (.close 6)).1.players
        = (step exState (.message 6 (.hello (some "spectator") none none none) 50)).1.players ∧
      (step (step exState (.message 6 (.hello (some "spectator") none none none) 50)).1
          (.close 6)).2 = []) := by
  have h1 := invalid_hello_no_effect.1 exState 6 50 (some "spectator") none none none
    ⟨none, none⟩ (by decide) (by decide) (by decide)
  have h2 := invalid_hello_no_effect.2
    (step exState (.message 6 (.hello (some "spectator") none none none) 50)).1 6
    ⟨some "spectator", none⟩ (by decide) (by decide) (by decide)
  exact ⟨⟨h1.1, h1.2.2.2.1⟩, ⟨h2.1, h2.2.2⟩⟩

/-- C3: the registry never holds two entries for one `playerId` (its keys
are distinct in every reachable state), and a `hello` re-registering an
id that has a live (open) entry first emits a close for the old entry's
connection and then installs a fresh entry with `connectedAt = now`,
leaving exactly one entry for that id. -/
theorem register_unique_live_entry :
    (∀ s : ServerState, Reachable s → keysNodup s.players) ∧
    (∀ (s : ServerState) (c now : Nat) (pid : Option String) (cfg : Option Config)
        (w : Option Nat) (cs : ConnState) (ex : PlayerData),
      mapGet s.conns c = some cs →
      mapGet s.players (resolvePid pid now) = some ex →
      isOpen s ex.wsConn = true →
      keysNodup s.players →
      (step s (.message c (.hello (some "player") pid cfg w) now)).2.head?
          = some (Action.closeConn ex.wsConn) ∧
      mapGet (step s (.message c (.hello (some "player") pid cfg w) now)).1.players
          (resolvePid pid now)
        = some ⟨c, cfg.getD defaultConfig, toStoredWidth w, now⟩ ∧
      ((step s (.message c (.hello (some "player") pid cfg w) now)).1.players.map
          Prod.fst).count (resolvePid pid now) = 1) := by
  constructor
  · exact fun s h => reachable_keysNodup h
  · intro s c now pid cfg w cs ex hconn hex hopen hkeys
    rw [step_message_eq s c _ now cs hconn]
    simp only [handleMessage, hex, hopen, if_pos rfl, if_true, reduceIte]
    refine ⟨by simp, mapGet_mapSet_self _ _ _, ?_⟩
    exact List.count_eq_one_of_mem (keysNodup_mapSet _ _ _ hkeys)
      (mem_keys_of_mapGet (mapGet_mapSet_self _ _ _))

/-- C3 witness: re-registering id "A" (already live on open connection 1)
from connection 6 first closes connection 1, installs the fresh entry
with `connectedAt = 100`, and leaves "A" with exactly one entry. -/
theorem register_unique_live_entry_witness :
    keysNodup (initState 0).players ∧
    ((step exState (.message 6 (.hello (some "player") (some "A") none (some 500)) 100)).2.head?
        = some (Action.closeConn 1) ∧
      mapGet (step exState
          (.message 6 (.hello (some "player") (some "A") none (some 500)) 100)).1.players "A"
        = some ⟨6, defaultConfig, some 500, 100⟩ ∧
      ((step exState
          (.message 6 (.hello (some "player") (some "A") none (some 500)) 100)).1.players.map
          Prod.fst).count "A" = 1) := by
  constructor
  · exact register_unique_live_entry.1 (initState 0) (Reachable.start 0)
  · exact register_unique_live_entry.2 exState 6 100 (some "A") none (some 500)
      ⟨none, none⟩ ⟨1, defaultConfig, some 1920, 10⟩ (by decide) (by decide) (by decide)
      (by decide)

/-- C4: a controller `setConfig` for a registered player merges exactly
the supplied fields over that player's current layout (absent fields keep
their prior values; `offsetPx` falls back to 0 only when absent in both
the message and the prior layout), touches no other player and no other
server state, and a `setConfig` for an unregistered id changes nothing
and emits nothing. -/
theorem setConfig_merges_supplied_fields :
    (∀ (s : ServerState) (c now : Nat) (p : String) (sc si off : Option Nat)
        (cs : ConnState) (pl : PlayerData),
      mapGet s.conns c = some cs → cs.role = some "controller" → p ≠ "" →
      mapGet s.players p = some pl →
      mapGet (step s (.message c (.setConfig (some p) sc si off) now)).1.players p
        = some { pl with config :=
            ⟨sc <|> pl.config.screenCount, si <|> pl.config.screenIndex,
             some ((off <|> pl.config.offsetPx).getD 0)⟩ } ∧
      (∀ k, k ≠ p →
        mapGet (step s (.message c (.setConfig (some p) sc si off) now)).1.players k
          = mapGet s.players k) ∧
      (step s (.message c (.setConfig (some p) sc si off) now)).1.controllers
        = s.controllers ∧
      (step s (.message c (.setConfig (some p) sc si off) now)).1.conns = s.conns ∧
      (step s (.message c (.setConfig (some p) sc si off) now)).1.startAt = s.startAt) ∧
    (∀ (s : ServerState) (c now : Nat) (p : String) (sc si off : Option Nat)
        (cs : ConnState),
      mapGet s.conns c = some cs → mapGet s.players p = none →
      step s (.message c (.setConfig (some p) sc si off) now) = (s, [])) := by
  constructor
  · intro s c now p sc si off cs pl hconn hrole hp hpl
    rw [step_message_eq s c _ now cs hconn]
    simp only [handleMessage, hpl]
    rw [if_pos (show cs.role = some "controller" ∧ truthyStr (some p) from ⟨hrole, hp⟩)]
    refine ⟨mapGet_mapSet_self _ _ _, fun k hk => mapGet_mapSet_ne _ _ hk, rfl, rfl, rfl⟩
  · intro s c now p sc si off cs hconn hnone
    rw [step_message_eq s c _ now cs hconn]
    by_cases hb : cs.role = some "controller" ∧ truthyStr (some p)
    · simp only [handleMessage, hnone]
      rw [if_pos hb]
    · simp only [handleMessage]
      rw [if_neg hb]

/-- C4 witness: a `setConfig` for registered player "B" supplying only
`screenIndex := 7` keeps `screenCount = 2` and `offsetPx = 0` from B's
prior layout, and a `setConfig` for unregistered id "Z" is a complete
no-op. -/
theorem setConfig_merges_supplied_fields_witness :
    (mapGet (step exState (.message 5 (.setConfig (some "B") none (some 7) none) 50)).1.players
        "B" = some ⟨2, ⟨some 2, some 7, some 0⟩, some 1080, 11⟩) ∧
    step exState (.message 5 (.setConfig (some "Z") (some 9) (some 9) (some 9)) 50)
      = (exState, []) := by
  constructor
  · have h := setConfig_merges_supplied_fields.1 exState 5 50 "B" none (some 7) none
      ⟨some "controller", none⟩ ⟨2, defaultConfig, some 1080, 11⟩
      (by decide) rfl (by decide) (by decide)
    have h1 := h.1
    rw [h1]
    decide
  · exact setConfig_merges_supplied_fields.2 exState 5 50 "Z" (some 9) (some 9) (some 9)
      ⟨some "controller", none⟩ (by decide) (by decide)

/-- Reduction of the `reportWidth` handler for a registered player. -/
theorem handleMessage_reportWidth_eq (s : ServerState) (c : Nat) (cs : ConnState)
    (pid : String) (pl : PlayerData) (w : Option Nat) (now : Nat)
    (hrole : cs.role = some "player") (hpid : cs.playerId = some pid)
    (hne : pid ≠ "") (hpl : mapGet s.players pid = some pl) :
    handleMessage s c cs (.reportWidth w) now =
      (if pl.actualWidth ≠ toStoredWidth w
       then ({ s with players :=
                mapSet s.players pid { pl with actualWidth := toStoredWidth w } },
             notifyActions
               { s with players :=
                   mapSet s.players pid { pl with actualWidth := toStoredWidth w } })
       else ({ s with players :=
                mapSet s.players pid { pl with actualWidth := toStoredWidth w } }, [])) := by
  simp only [handleMessage, hpid]
  rw [if_pos (show cs.role = some "player" ∧ truthyStr (some pid) from ⟨hrole, hne⟩)]
  simp only [hpl]

/-- A `reportWidth` whose value coincides with the stored one changes
nothing and emits nothing. -/
theorem reportWidth_same_noop (s : ServerState) (c now2 : Nat) (pid : String)
    (w : Option Nat) (cs : ConnState) (pl : PlayerData)
    (hconn : mapGet s.conns c = some cs) (hrole : cs.role = some "player")
    (hpid : cs.playerId = some pid) (hne : pid ≠ "")
    (hget : mapGet s.players pid = some pl)
    (hsame : pl.actualWidth = toStoredWidth w) (hnd : keysNodup s.players) :
    step s (.message c (.reportWidth w) now2) = (s, []) := by
  rw [step_message_eq s c _ now2 cs hconn,
    handleMessage_reportWidth_eq s c cs pid pl w now2 hrole hpid hne hget]
  rw [if_neg (by simp [hsame])]
  have h1 : ({ pl with actualWidth := toStoredWidth w } : PlayerData) = pl := by
    cases pl
    simp_all
  rw [h1, mapSet_eq_self hnd hget]

/-- C8: a `reportWidth` from a registered player stores the reported
width, and the controller notification fires exactly when the stored
value changed; in particular a second `reportWidth` carrying the same
value is a complete no-op (no state change, no notification). -/
theorem reportWidth_notifies_iff_changed (s : ServerState) (c now now2 : Nat)
    (pid : String) (w : Option Nat) (cs : ConnState) (pl : PlayerData)
    (hconn : mapGet s.conns c = some cs) (hrole : cs.role = some "player")
    (hpid : cs.playerId = some pid) (hne : pid ≠ "")
    (hpl : mapGet s.players pid = some pl) (hkeys : keysNodup s.players) :
    (step s (.message c (.reportWidth w) now)).1.players
        = mapSet s.players pid { pl with actualWidth := toStoredWidth w } ∧
    (step s (.message c (.reportWidth w) now)).2
        = (if pl.actualWidth ≠ toStoredWidth w
           then notifyActions (step s (.message c (.reportWidth w) now)).1 else []) ∧
    step (step s (.message c (.reportWidth w) now)).1 (.message c (.reportWidth w) now2)
        = ((step s (.message c (.reportWidth w) now)).1, []) := by
  rw [step_message_eq s c _ now cs hconn,
    handleMessage_reportWidth_eq s c cs pid pl w now hrole hpid hne hpl]
  by_cases hd : pl.actualWidth ≠ toStoredWidth w
  · rw [if_pos hd]
    refine ⟨rfl, by rw [if_pos hd], ?_⟩
    exact reportWidth_same_noop
      ({ s with players := mapSet s.players pid { pl with actualWidth := toStoredWidth w } })
      c now2 pid w cs { pl with actualWidth := toStoredWidth w } hconn hrole hpid hne
      (mapGet_mapSet_self _ _ _) rfl (keysNodup_mapSet _ _ _ hkeys)
  · rw [if_neg hd]
    refine ⟨rfl, by rw [if_neg hd], ?_⟩
    exact reportWidth_same_noop
      ({ s with players := mapSet s.players pid { pl with actualWidth := toStoredWidth w } })
      c now2 pid w cs { pl with actualWidth := toStoredWidth w } hconn hrole hpid hne
      (mapGet_mapSet_self _ _ _) rfl (keysNodup_mapSet _ _ _ hkeys)

/-- C8 witness: on the concrete state, player B reporting width 777 twice:
the first call stores 777 and notifies the controller, the second call is
a no-op. -/
theorem reportWidth_notifies_iff_changed_witness :
    (step exState (.message 2 (.reportWidth (some 777)) 50)).1.players
        = mapSet exState.players "B" ⟨2, defaultConfig, some 777, 11⟩ ∧
    (step exState (.message 2 (.reportWidth (some 777)) 50)).2
        = notifyActions (step exState (.message 2 (.reportWidth (some 777)) 50)).1 ∧
    step (step exState (.message 2 (.reportWidth (some 777)) 50)).1
        (.message 2 (.reportWidth (some 777)) 60)
      = ((step exState (.message 2 (.reportWidth (some 777)) 50)).1, []) := by
  have h := reportWidth_notifies_iff_changed exState 2 50 60 "B" (some 777)
    ⟨some "player", some "B"⟩ ⟨2, defaultConfig, some 1080, 11⟩
    (by decide) rfl rfl (by decide) (by decide) (by decide)
  refine ⟨h.1, ?_, h.2.2⟩
  have h2 := h.2.1
  rw [if_pos (by decide)] at h2
  exact h2

/-- C9: a falsy width value (0) supplied in `hello` or `reportWidth` is
stored as an absent width (`none`), the player is listed in the snapshot
with no width, and in a `quickApply` such a player contributes zero to
downstream offsets (the next player's offset equals its own). -/
theorem falsy_width_stored_as_unknown :
    (∀ (s : ServerState) (c now : Nat) (pid : Option String) (cfg : Option Config)
        (cs : ConnState),
      mapGet s.conns c = some cs → keysNodup s.players →
      (∃ d, mapGet (step s (.message c (.hello (some "player") pid cfg (some 0)) now)).1.players
          (resolvePid pid now) = some d ∧ d.actualWidth = none) ∧
      (∀ e ∈ getPlayerList
          (step s (.message c (.hello (some "player") pid cfg (some 0)) now)).1.players,
        e.playerId = resolvePid pid now → e.actualWidth = none)) ∧
    (∀ (s : ServerState) (c now : Nat) (pid : String) (cs : ConnState) (pl : PlayerData),
      mapGet s.conns c = some cs → cs.role = some "player" →
      cs.playerId = some pid → pid ≠ "" → mapGet s.players pid = some pl →
      ∃ d, mapGet (step s (.message c (.reportWidth (some 0)) now)).1.players pid
          = some d ∧ d.actualWidth = none) ∧
    (∀ (s : ServerState) (c now : Nat) (cs : ConnState) (i : Nat)
        (hi : i + 1 < (getPlayerList s.players).length),
      mapGet s.conns c = some cs → cs.role = some "controller" →
      keysNodup s.players →
      ((getPlayerList s.players).get ⟨i, by omega⟩).actualWidth = none →
      ∃ d1 d2,
        mapGet (step s (.message c .quickApply now)).1.players
            ((getPlayerList s.players).get ⟨i, by omega⟩).playerId = some d1 ∧
        mapGet (step s (.message c .quickApply now)).1.players
            ((getPlayerList s.players).get ⟨i + 1, hi⟩).playerId = some d2 ∧
        d1.config.offsetPx = d2.config.offsetPx) := by
  refine ⟨?_, ?_, ?_⟩
  · intro s c now pid cfg cs hconn hkeys
    rw [step_message_eq s c _ now cs hconn]
    simp only [handleMessage, if_pos]
    constructor
    · exact ⟨_, mapGet_mapSet_self _ _ _, rfl⟩
    · intro e hmem hepid
      have hnd2 : keysNodup (mapSet s.players (resolvePid pid now)
          ⟨c, cfg.getD defaultConfig, toStoredWidth (some 0), now⟩) :=
        keysNodup_mapSet _ _ _ hkeys
      obtain ⟨kv, hkv, rfl⟩ := mem_getPlayerList hmem
      have hg := mapGet_of_mem hnd2 hkv
      rw [show (entryOf kv).playerId = kv.1 from rfl] at hepid
      rw [hepid] at hg
      rw [mapGet_mapSet_self] at hg
      have hkv2 : kv.2 = ⟨c, cfg.getD defaultConfig, toStoredWidth (some 0), now⟩ :=
        (Option.some_inj.mp hg).symm
      show kv.2.actualWidth = none
      rw [hkv2]
      rfl
  · intro s c now pid cs pl hconn hrole hpid hne hpl
    rw [step_message_eq s c _ now cs hconn,
      handleMessage_reportWidth_eq s c cs pid pl (some 0) now hrole hpid hne hpl]
    by_cases hd : pl.actualWidth ≠ toStoredWidth (some 0)
    · rw [if_pos hd]
      exact ⟨_, mapGet_mapSet_self _ _ _, rfl⟩
    · rw [if_neg hd]
      exact ⟨_, mapGet_mapSet_self _ _ _, rfl⟩
  · intro s c now cs i hi hconn hrole hkeys hwidth
    rw [step_message_eq s c _ now cs hconn]
    simp only [handleMessage, hrole, if_pos]
    have hl := quickApplyLoop_spec s.openConns (getPlayerList s.players)
        (getPlayerList s.players).length 0 0 s.players
        (getPlayerList_ids_nodup _ hkeys)
        (fun e he => by
          obtain ⟨pl, hpl, hw, _, _⟩ := snapshot_entry_get hkeys he
          exact ⟨pl, hpl, hw⟩)
    obtain ⟨d1, hd1, hc1⟩ := hl i (by omega)
    obtain ⟨d2, hd2, hc2⟩ := hl (i + 1) hi
    refine ⟨d1, d2, by simpa using hd1, by simpa using hd2, ?_⟩
    rw [hc1, hc2]
    have hoff : prefixOffset (getPlayerList s.players) (i + 1)
        = prefixOffset (getPlayerList s.players) i := by
      rw [prefixOffset_succ _ i (by omega)]
      simp only [widthOf, List.get_eq_getElem] at hwidth ⊢
      simp [hwidth]
    simp [hoff]

/-- C9 witness: on the concrete state, a `hello` registering "E" with
width 0 stores no width, player B reporting width 0 stores no width, and
after `quickApply` the unknown-width player C and its successor D share
the same offset (3000). -/
theorem falsy_width_stored_as_unknown_witness :
    (∃ d, mapGet (step exState
        (.message 6 (.hello (some "player") (some "E") none (some 0)) 100)).1.players "E"
      = some d ∧ d.actualWidth = none) ∧
    (∃ d, mapGet (step exState (.message 2 (.reportWidth (some 0)) 50)).1.players "B"
      = some d ∧ d.actualWidth = none) ∧
    (∃ d1 d2, mapGet (step exState (.message 5 .quickApply 100)).1.players "C" = some d1 ∧
      mapGet (step exState (.message 5 .quickApply 100)).1.players "D" = some d2 ∧
      d1.config.offsetPx = d2.config.offsetPx) := by
  refine ⟨?_, ?_, ?_⟩
  · have h := (falsy_width_stored_as_unknown.1 exState 6 100 (some "E") none
      ⟨none, none⟩ (by decide) (by decide)).1
    have hE : resolvePid (some "E") 100 = "E" := by decide
    rw [hE] at h
    exact h
  · exact falsy_width_stored_as_unknown.2.1 exState 2 50 "B"
      ⟨some "player", some "B"⟩ ⟨2, defaultConfig, some 1080, 11⟩
      (by decide) rfl rfl (by decide) (by decide)
  · have h := falsy_width_stored_as_unknown.2.2 exState 5 100
      ⟨some "controller", none⟩ 2 (by decide) (by decide) rfl (by decide) (by decide)
    have hC : ((getPlayerList exState.players).get ⟨2, by decide⟩).playerId = "C" := by decide
    have hD : ((getPlayerList exState.players).get ⟨3, by decide⟩).playerId = "D" := by decide
    rw [hC, hD] at h
    exact h

end Marquee
